import Mathlib

/-!
Verification of the comb-desktop scraping core against its specification.

The TypeScript sources embedded here are:
  * `src/main/services/alibaba/utils.ts` (URL normalization, page predicates),
  * `src/main/services/alibaba.service.ts` (crawl orchestrator, extraction
    engine, captcha handling, busy guard),
  * `src/main/services/browser.service.ts`, pooled version (navigation retry
    loop, idle-cleanup scheduling, health-check tick).

JavaScript strings are embedded as `List Char`; JS numbers that are used as
integers are embedded as `Nat` (all the quantities involved are non-negative);
promise rejection / thrown exceptions are embedded as `Except`; the
event-loop environment (what the browser page does on each await) is an
explicit argument of each modelled function.
-/

namespace CombDesktop

/-! ## alibaba/utils.ts -/

/-- Characters of the scheme fragment matched by the regex `/^https?:\/\//i`
for the plain-http alternative: the literal text http followed by colon and
two slashes. -/
def httpSchemeChars : List Char :=
  ['h', 't', 't', 'p', ':', '/', '/']

/-- Characters of the https scheme fragment: the literal text https followed
by colon and two slashes. This is also the string prepended by
`normalizeUrl` for scheme-less inputs. -/
def httpsSchemeChars : List Char :=
  ['h', 't', 't', 'p', 's', ':', '/', '/']

/-- Characters of the canonical site origin that `normalizeUrl` prepends to
root-relative URLs in `utils.ts`. -/
def alibabaOriginChars : List Char :=
  ['h', 't', 't', 'p', 's', ':', '/', '/', 'w', 'w', 'w', '.', 'a', 'l', 'i',
   'b', 'a', 'b', 'a', '.', 'c', 'o', 'm']

/-- Embedding of the test `/^https?:\/\//i.test(url)` from `normalizeUrl` in
`utils.ts`: the URL, lower-cased, begins with the http or https scheme. -/
def hasHttpScheme (u : List Char) : Bool :=
  List.isPrefixOf httpSchemeChars (u.map Char.toLower) ||
    List.isPrefixOf httpsSchemeChars (u.map Char.toLower)

/-- Embedding of `normalizeUrl` from `src/main/services/alibaba/utils.ts`:
empty input maps to empty; a protocol-relative URL (leading two slashes) gets
the https scheme word and colon prepended; a root-relative URL (one leading
slash) is prefixed with the canonical origin; an input not matching
`/^https?:\/\//i` gets the https scheme prepended; anything else passes
through unchanged.  The `try`/`catch` around the source body can never fire
(no throwing operation occurs inside), so it is not represented. -/
def normalizeUrl (u : List Char) : List Char :=
  if u.isEmpty then []
  else if List.isPrefixOf ['/', '/'] u then
    'h' :: 't' :: 't' :: 'p' :: 's' :: ':' :: u
  else if List.isPrefixOf ['/'] u then
    alibabaOriginChars ++ u
  else if !hasHttpScheme u then
    httpsSchemeChars ++ u
  else u

/-! ## alibaba.service.ts: extraction engine -/

/-- Embedding of `String.prototype.trim` as used on JS strings in
`processSupplierCard`: whitespace is removed from both ends. -/
def jsTrim (s : List Char) : List Char :=
  ((s.dropWhile Char.isWhitespace).reverse.dropWhile Char.isWhitespace).reverse

/-- Embedding of the JS pattern chain read-then-default used on both the
text content and the href attribute of the title link (a nullable string is
trimmed, with null and the empty trim result collapsing to the empty
string). -/
def orEmptyTrim : Option (List Char) → List Char
  | none => []
  | some t => jsTrim t

/-- The record shape constructed by `processSupplierCard` in
`src/main/services/alibaba.service.ts` (fields `id`, `chineseName`,
`englishName`, `albabaURL` and the contact / location / metadata strings,
exactly as the object literal in the source). -/
structure SupplierInfo where
  id : Nat
  chineseName : List Char
  englishName : List Char
  albabaURL : List Char
  phone : List Char
  email : List Char
  country : List Char
  province : List Char
  city : List Char
  district : List Char
  address : List Char
  website : List Char
  establishedYear : List Char
  creditCode : List Char
deriving DecidableEq

/-- What one supplier card element offers to `processSupplierCard`: the text
content and the href attribute of its title link (each possibly null), plus
whether any of the locator operations on the card reject (the source wraps
the card body in try/catch and maps any rejection to null). -/
structure CardData where
  nameText : Option (List Char)
  hrefAttr : Option (List Char)
  throws : Bool
deriving DecidableEq

/-- Embedding of `AlibabaService.processSupplierCard`: resolve the company
name (trimmed text content, empty on null) and the company URL (normalized
trimmed href); a card whose resolved name is empty yields null, as does a
card whose locator operations reject; otherwise a `SupplierInfo` whose
`englishName` is the resolved name, `albabaURL` the normalized URL, and all
other string fields the empty string. -/
def processSupplierCard (card : CardData) (index : Nat) : Option SupplierInfo :=
  if card.throws then none
  else
    let companyName := orEmptyTrim card.nameText
    let companyURL := normalizeUrl (orEmptyTrim card.hrefAttr)
    if companyName.isEmpty then none
    else
      some { id := index, chineseName := [], englishName := companyName,
             albabaURL := companyURL, phone := [], email := [], country := [],
             province := [], city := [], district := [], address := [],
             website := [], establishedYear := [], creditCode := [] }

/-- What a results page offers the extraction engine: whether
`waitForSupplierCards` sees the card selector attach in time, the located
card elements in document order, and, for each batch start offset `i`
(0, 5, 10, ...), whether the inter-batch `page.waitForTimeout(500)` issued
after processing the batch starting at `i` rejects. -/
structure ExtractionPage where
  cardsLoaded : Bool
  cards : List CardData
  interBatchFail : Nat → Bool

/-- Sequential per-card processing of a card list starting at 0-based page
position `pos`: card at position `p` is processed with ordinal index
`(pageNumber - 1) * 20 + p + 1` exactly as the arithmetic in
`extractSuppliersFromPage`; fulfilled non-null results are kept in order and
null results are dropped (`Promise.allSettled` + the fulfilled/non-null
filter — `processSupplierCard` itself never rejects). -/
def processAll (pageNumber : Nat) : Nat → List CardData → List SupplierInfo
  | _, [] => []
  | pos, c :: rest =>
    match processSupplierCard c ((pageNumber - 1) * 20 + pos + 1) with
    | some r => r :: processAll pageNumber (pos + 1) rest
    | none => processAll pageNumber (pos + 1) rest

/-- Embedding of the batch loop of `extractSuppliersFromPage`: slices of five
cards are processed and their results pushed onto the accumulator, then the
inter-batch `waitForTimeout` runs; if that wait rejects, the whole function
throws (the source's catch block rethrows for the retry mechanism), losing
the accumulated records; otherwise the loop advances by five.  The batch
slice `c :: rest.take 4` is `remaining.take 5` and the advance
`rest.drop 4` is `remaining.drop 5`. -/
def extractBatches (pg : ExtractionPage) (pageNumber : Nat)
    (i : Nat) (remaining : List CardData) (acc : List SupplierInfo) :
    Except Unit (List SupplierInfo) :=
  match remaining with
  | [] => Except.ok acc
  | c :: rest =>
    if pg.interBatchFail i then Except.error ()
    else
      extractBatches pg pageNumber (i + 5) (rest.drop 4)
        (acc ++ processAll pageNumber i (c :: rest.take 4))
termination_by remaining.length
decreasing_by simp [List.length_drop]; omega

/-- Embedding of `AlibabaService.extractSuppliersFromPage`: an empty list is
returned when the cards never attach or no card is located; otherwise the
batch loop runs, and any rejection inside it is rethrown to the caller. -/
def extractSuppliersFromPage (pg : ExtractionPage) (pageNumber : Nat) :
    Except Unit (List SupplierInfo) :=
  if !pg.cardsLoaded then Except.ok []
  else if pg.cards.isEmpty then Except.ok []
  else extractBatches pg pageNumber 0 pg.cards []

/-- Embedding of `AlibabaService.extractSuppliersWithRetry` with its constant
`MAX_EXTRACTION_RETRIES = 2` inlined: a first extraction attempt, and on
rejection (after the page-recovery side effect) one further attempt whose
rejection is rethrown to the crawl loop.  `pages n` is the page state seen
by attempt `n`. -/
def extractSuppliersWithRetry (pages : Nat → ExtractionPage)
    (pageNumber : Nat) : Except Unit (List SupplierInfo) :=
  match extractSuppliersFromPage (pages 0) pageNumber with
  | Except.ok v => Except.ok v
  | Except.error _ => extractSuppliersFromPage (pages 1) pageNumber

/-! ## alibaba.service.ts: captcha handling -/

/-- Embedding of the polling loop inside
`AlibabaService.promptManualCaptchaResolution`: starting from elapsed time
`elapsed` (milliseconds) and poll count `k`, while the challenge is
unresolved and less than the 180000 ms window has elapsed, classify the page
(`captchaAt k` tells whether `isCaptchaPage` still sees a challenge at the
`k`-th poll) and, when still present, wait 5000 ms and poll again.  Only the
5000 ms waits are counted towards elapsed time (the real loop also spends
classification time, so it performs at most as many polls as this model).
Returns whether the challenge was observed solved, and the number of
classification polls performed. -/
def manualWaitLoop (captchaAt : Nat → Bool) (elapsed k : Nat) : Bool × Nat :=
  if 180000 ≤ elapsed then (false, k)
  else if captchaAt k = false then (true, k + 1)
  else manualWaitLoop captchaAt (elapsed + 5000) (k + 1)
termination_by 180000 - elapsed
decreasing_by omega

/-- Embedding of `AlibabaService.promptManualCaptchaResolution`: suspend page
timeouts, run the bounded polling loop from time zero, restore timeouts.
The observable outcome is the loop's result. -/
def promptManualCaptchaResolution (captchaAt : Nat → Bool) : Bool × Nat :=
  manualWaitLoop captchaAt 0 0

/-- Embedding of `AlibabaService.handleComplexCaptcha`: first the slider
attempt (its three-attempt drag procedure is summarized by the environment
bit `sliderSolved`), then the OCR escalation when an OCR collaborator is
configured (summarized by `ocrSolved`), then the manual-intervention wait,
after which the handler reports solved exactly when the final
`isCaptchaPage` classification — the poll right after the wait loop, index
equal to the number of polls performed — no longer sees a challenge. -/
def handleComplexCaptcha (sliderSolved ocrAvailable ocrSolved : Bool)
    (captchaAt : Nat → Bool) : Bool :=
  if sliderSolved then true
  else if ocrAvailable && ocrSolved then true
  else !(captchaAt (promptManualCaptchaResolution captchaAt).2)

/-! ## alibaba.service.ts: crawl orchestrator -/

/-- What one iteration of the page loop in `executeSupplierSearchStream`
encounters after navigating to the current page number:
* `navFail` — `robustGoto` returned false (all its retries failed);
* `noMore` — a supplier search page with the no-more-results element;
* `results ex` — a supplier search page with results; `ex n` is the page
  state seen by the `n`-th extraction attempt;
* `captcha` — `isSupplierSearchPage` false but `isCaptchaPage` true, with
  the challenge environment for `handleComplexCaptcha`;
* `unknownPage` — neither a supplier search page nor a captcha page;
* `throwErr` — an unexpected rejection inside the iteration (for example
  `acquireNewPage` failing), caught by the attempt-level catch. -/
inductive PageOutcome where
  | navFail
  | noMore
  | unknownPage
  | results (ex : Nat → ExtractionPage)
  | captcha (sliderSolved ocrSolved : Bool) (captchaAt : Nat → Bool)
  | throwErr

/-- How one run of the page loop ended: the while loop exited (page cap
passed, no-more-results, or unknown page), an exception escaped to the
attempt-level catch, or the iteration budget of the model ran out. -/
inductive LoopEnd where
  | completed
  | errored
  | fuelOut
deriving DecidableEq

/-- Observable trace of one run of the page loop: the batches yielded to the
generator's consumer in order, the page numbers navigated to in order, and
how the run ended. -/
structure LoopResult where
  yields : List (List SupplierInfo)
  visited : List Nat
  ending : LoopEnd
deriving DecidableEq

/-- Embedding of the `while (hasMoreResults && pageNumber <= pageLimit)` loop
of `executeSupplierSearchStream`.  `env step` is what the `step`-th loop
iteration of this attempt encounters; `p` is the current page number
(starting at 1).  Navigation failure skips to `p + 1`; no-more-results and
unknown pages break the loop; a results page extracts (an extraction
rejection escapes to the attempt-level catch, an extracted batch is yielded
and the loop advances); a captcha page advances only when the challenge
handler fails (on success the loop re-runs the same page number).  `fuel`
bounds the number of iterations of the model; the source loop has no such
bound (a captcha page whose challenge keeps being solved re-runs the same
page number forever). -/
def crawlLoop (ocrAvailable : Bool) (env : Nat → PageOutcome)
    (pageLimit : Nat) : Nat → Nat → Nat → LoopResult
  | 0, _, _ => ⟨[], [], LoopEnd.fuelOut⟩
  | fuel + 1, step, p =>
    if p > pageLimit then ⟨[], [], LoopEnd.completed⟩
    else
      match env step with
      | PageOutcome.navFail =>
        let r := crawlLoop ocrAvailable env pageLimit fuel (step + 1) (p + 1)
        ⟨r.yields, p :: r.visited, r.ending⟩
      | PageOutcome.noMore => ⟨[], [p], LoopEnd.completed⟩
      | PageOutcome.unknownPage => ⟨[], [p], LoopEnd.completed⟩
      | PageOutcome.results ex =>
        match extractSuppliersWithRetry ex p with
        | Except.ok batch =>
          let r := crawlLoop ocrAvailable env pageLimit fuel (step + 1) (p + 1)
          ⟨batch :: r.yields, p :: r.visited, r.ending⟩
        | Except.error _ => ⟨[], [p], LoopEnd.errored⟩
      | PageOutcome.captcha sliderSolved ocrSolved captchaAt =>
        if handleComplexCaptcha sliderSolved ocrAvailable ocrSolved captchaAt then
          let r := crawlLoop ocrAvailable env pageLimit fuel (step + 1) p
          ⟨r.yields, p :: r.visited, r.ending⟩
        else
          let r := crawlLoop ocrAvailable env pageLimit fuel (step + 1) (p + 1)
          ⟨r.yields, p :: r.visited, r.ending⟩
      | PageOutcome.throwErr => ⟨[], [p], LoopEnd.errored⟩

/-- `Number.MAX_SAFE_INTEGER`, the page limit used when no positive page cap
is configured. -/
def maxSafeInteger : Nat := 9007199254740991

/-- Embedding of
`maxPages && maxPages > 0 ? maxPages : Number.MAX_SAFE_INTEGER`: a zero or
absent page cap means unlimited. -/
def pageLimitOf : Option Nat → Nat
  | some m => if m > 0 then m else maxSafeInteger
  | none => maxSafeInteger

/-- Embedding of the `MAX_RETRIES = 3` attempt loop of
`executeSupplierSearchStream`: each attempt runs the page loop from page 1
(the page counter is re-declared per attempt); on normal completion the
generator returns; on an escaped exception the browser is reset and, while
attempts remain, the loop restarts — the batches already yielded to the
consumer in the failed attempt stay delivered, so yields accumulate across
attempts; the last attempt's exception is rethrown.  `env idx` is the page
environment seen by attempt `idx`. -/
def runAttempts (ocrAvailable : Bool) (env : Nat → Nat → PageOutcome)
    (pageLimit fuel : Nat) : Nat → Nat → LoopResult
  | 0, _ => ⟨[], [], LoopEnd.errored⟩
  | n + 1, idx =>
    let r := crawlLoop ocrAvailable (env idx) pageLimit fuel 0 1
    match r.ending with
    | LoopEnd.completed => ⟨r.yields, r.visited, LoopEnd.completed⟩
    | LoopEnd.fuelOut => ⟨r.yields, r.visited, LoopEnd.fuelOut⟩
    | LoopEnd.errored =>
      match n with
      | 0 => ⟨r.yields, r.visited, LoopEnd.errored⟩
      | m + 1 =>
        let rest :=
          runAttempts ocrAvailable env pageLimit fuel (m + 1) (idx + 1)
        ⟨r.yields ++ rest.yields, r.visited ++ rest.visited, rest.ending⟩

/-- Embedding of `AlibabaService.executeSupplierSearchStream`: compute the
page limit from the optional cap and run up to three attempts of the page
loop. -/
def executeSupplierSearchStream (ocrAvailable : Bool)
    (env : Nat → Nat → PageOutcome) (maxPages : Option Nat)
    (fuel : Nat) : LoopResult :=
  runAttempts ocrAvailable env (pageLimitOf maxPages) fuel 3 0

/-! ## alibaba.service.ts: service state and public API -/

/-- The per-instance mutable state relevant to the single-flight guard of
`AlibabaService`: the `activeSearchTask` field
(`Promise<SupplierInfo[]> | null`, initialized to null). -/
structure AlibabaServiceState where
  activeSearchTask : Option Unit
deriving DecidableEq

/-- Outcome of starting `searchSuppliersStream`: either the busy guard fired
(the generator logs a warning and returns immediately, yielding nothing) or
the generator entered its try block and delegated to
`executeSupplierSearchStream`. -/
inductive StartOutcome where
  | busyRejected
  | loopStarted
deriving DecidableEq

/-- Embedding of the entry of `AlibabaService.searchSuppliersStream`: if
`activeSearchTask` is non-null the generator returns at once; otherwise it
enters the try block and starts the page loop.  The source contains no
assignment of a non-null value to `activeSearchTask` anywhere in the class —
the field is only read in this guard and set to null in the finally block —
so entering the try block leaves the state unchanged. -/
def searchSuppliersStreamStart (s : AlibabaServiceState) :
    StartOutcome × AlibabaServiceState :=
  match s.activeSearchTask with
  | some _ => (StartOutcome.busyRejected, s)
  | none => (StartOutcome.loopStarted, s)

/-- Embedding of the finally block of `searchSuppliersStream`:
`activeSearchTask` is set to null and resources are cleaned up. -/
def searchSuppliersStreamFinish (s : AlibabaServiceState) :
    AlibabaServiceState :=
  { s with activeSearchTask := none }

/-- The batches yielded by one full run of
`AlibabaService.searchSuppliersStream` from state `s`: nothing when the busy
guard fires, otherwise the yields of `executeSupplierSearchStream`.  The
optional `onPageComplete` callback does not influence the yields (callback
exceptions are caught and logged), so it is not a parameter. -/
def searchSuppliersStream (s : AlibabaServiceState) (ocrAvailable : Bool)
    (env : Nat → Nat → PageOutcome) (maxPages : Option Nat)
    (fuel : Nat) : List (List SupplierInfo) :=
  match s.activeSearchTask with
  | some _ => []
  | none => (executeSupplierSearchStream ocrAvailable env maxPages fuel).yields

/-- Embedding of `AlibabaService.searchSuppliers`: iterate the stream with an
undefined callback and push each page's suppliers onto the accumulated
list. -/
def searchSuppliers (s : AlibabaServiceState) (ocrAvailable : Bool)
    (env : Nat → Nat → PageOutcome) (maxPages : Option Nat)
    (fuel : Nat) : List SupplierInfo :=
  (searchSuppliersStream s ocrAvailable env maxPages fuel).foldl
    (fun acc b => acc ++ b) []

/-! ## browser.service.ts (pooled version): session pool -/

/-- The states of `BrowserState` used by the modelled transitions
(`INITIALIZING` never appears in them). -/
inductive BrowserSvcState where
  | uninit
  | ready
  | errorState
  | closed
deriving DecidableEq

/-- `IDLE_CLEANUP_DELAY = 5 * 60 * 1000`: five minutes, in milliseconds. -/
def IDLE_CLEANUP_DELAY : Nat := 5 * 60 * 1000

/-- The pool bookkeeping of the pooled `BrowserService` relevant to idle
cleanup and the health check: the number of entries of the `pages` map, the
service state, the deadline of the pending idle-cleanup timer when one is
set, and how many times `initialize()` has been invoked. -/
structure PoolState where
  pages : Nat
  browserState : BrowserSvcState
  pendingCleanupAt : Option Nat
  initCalls : Nat
deriving DecidableEq

/-- Embedding of `BrowserService.scheduleIdleCleanup` invoked at time `now`:
any previously pending timer is cancelled and a new cleanup timer is set to
fire `IDLE_CLEANUP_DELAY` from now. -/
def scheduleIdleCleanup (s : PoolState) (now : Nat) : PoolState :=
  { s with pendingCleanupAt := some (now + IDLE_CLEANUP_DELAY) }

/-- Embedding of `BrowserService.cancelIdleCleanup`: the pending cleanup
timer, if any, is cleared. -/
def cancelIdleCleanup (s : PoolState) : PoolState :=
  { s with pendingCleanupAt := none }

/-- Embedding of `BrowserService.closePage` at time `now`: closing a page
that does not exist is a no-op; otherwise the page is removed from the
bookkeeping, and when the pool thereby becomes empty the idle cleanup is
scheduled. -/
def closePage (s : PoolState) (now : Nat) : PoolState :=
  if s.pages = 0 then s
  else
    let s2 : PoolState := { s with pages := s.pages - 1 }
    if s2.pages = 0 then scheduleIdleCleanup s2 now else s2

/-- Embedding of `BrowserService.createPage` (its pool-bookkeeping effect):
a new page is registered and the pending idle cleanup, if any, is
cancelled.  (The health-check interval is also ensured; this does not touch
the fields modelled here.) -/
def createPage (s : PoolState) : PoolState :=
  cancelIdleCleanup { s with pages := s.pages + 1 }

/-- Embedding of the idle-cleanup timer callback set by
`scheduleIdleCleanup`, evaluated at time `now`: it can only run when a timer
is pending and its deadline has passed; it re-checks that the pool is really
still empty and the service READY before acting, and then tears the browser
down (`cleanup()` closes everything and the state becomes UNINITIALIZED);
when the re-check fails the timer is consumed without teardown. -/
def idleCleanupFire (s : PoolState) (now : Nat) : PoolState :=
  match s.pendingCleanupAt with
  | none => s
  | some deadline =>
    if deadline ≤ now then
      if s.pages = 0 ∧ s.browserState = BrowserSvcState.ready then
        { s with pages := 0, pendingCleanupAt := none,
                 browserState := BrowserSvcState.uninit }
      else { s with pendingCleanupAt := none }
    else s

/-- Embedding of one tick of the health-check interval of the pooled
`BrowserService.startHealthCheck`: when the pool holds no pages the tick
returns at once without evaluating the browser; otherwise `checkHealth` is
consulted (its result is the environment bit `healthy`) and, when unhealthy
in READY state, `initialize()` is invoked (which, entered in READY state,
returns immediately; the invocation is counted in `initCalls`). -/
def healthCheckTick (s : PoolState) (healthy : Bool) : PoolState :=
  if s.pages = 0 then s
  else if healthy = false ∧ s.browserState = BrowserSvcState.ready then
    { s with initCalls := s.initCalls + 1 }
  else s

/-! ## browser.service.ts (pooled version): navigation driver -/

/-- Observable trace of one `navigateToUrl` call: whether it returned
normally (`ok = true`) or threw the `NAVIGATION_FAILED` `BrowserError`
(`ok = false`), how many `page.goto` attempts were made, and the list of
delays (in ms) slept between consecutive attempts, in order. -/
structure NavTraceResult where
  ok : Bool
  attemptsMade : Nat
  delays : List Nat
deriving DecidableEq

/-- Embedding of the `for (let attempt = 1; attempt <= retries; attempt++)`
loop of the pooled `BrowserService.navigateToUrl`, entered at attempt number
`attempt`: a successful `goto` (the environment bit `gotoOk attempt`)
returns immediately; a failed attempt other than the last sleeps
`retryDelay * attempt` (and restores the page if it was closed — no effect
on the fields modelled here) and continues; when the loop ends the
`NAVIGATION_FAILED` error is thrown. -/
def navAttempts (gotoOk : Nat → Bool) (retries retryDelay : Nat)
    (attempt : Nat) : NavTraceResult :=
  if _h1 : attempt > retries then ⟨false, 0, []⟩
  else if gotoOk attempt then ⟨true, 1, []⟩
  else if _h2 : attempt < retries then
    let r := navAttempts gotoOk retries retryDelay (attempt + 1)
    ⟨r.ok, r.attemptsMade + 1, retryDelay * attempt :: r.delays⟩
  else ⟨false, 1, []⟩
termination_by retries + 1 - attempt
decreasing_by omega

/-- Embedding of the pooled `BrowserService.navigateToUrl`: run the attempt
loop from attempt 1. -/
def navigateToUrl (gotoOk : Nat → Bool) (retries retryDelay : Nat) :
    NavTraceResult :=
  navAttempts gotoOk retries retryDelay 1

/-! ## Concrete inputs -/

/-- One well-formed supplier card used as a concrete input. -/
def plainCard : CardData :=
  { nameText := some ['A'], hrefAttr := none, throws := false }

/-- Concrete results page for the extraction-throw scenario: six cards that
all parse (so the first batch of five parses in full), with the inter-batch
wait after the first batch rejecting. -/
def throwAfterFivePage : ExtractionPage :=
  { cardsLoaded := true,
    cards := List.replicate 6 plainCard,
    interBatchFail := fun i => i == 0 }

/-- A results page whose cards never attach, so extraction returns an empty
batch without running the batch loop. -/
def emptyResultsPage : ExtractionPage :=
  { cardsLoaded := false, cards := [], interBatchFail := fun _ => false }

/-- Concrete two-attempt environment: attempt 0 yields the page-1 batch and
then hits an unexpected exception at its second iteration; attempt 1 runs
both pages to completion. -/
def retryEnv : Nat → Nat → PageOutcome
  | 0, 1 => PageOutcome.throwErr
  | _, _ => PageOutcome.results (fun _ => emptyResultsPage)

/-- Concrete page environment in which every page is a captcha page whose
challenge is never solved: the slider fails, OCR fails, and every
classification poll still sees the challenge. -/
def alwaysCaptchaEnv : Nat → PageOutcome :=
  fun _ => PageOutcome.captcha false false (fun _ => true)

/-! ## Theorems -/

theorem map_toLower_httpsSchemeChars :
    httpsSchemeChars.map Char.toLower = httpsSchemeChars := by
  decide

theorem hasHttpScheme_httpsScheme_append (v : List Char) :
    hasHttpScheme (httpsSchemeChars ++ v) = true := by
  have h : List.isPrefixOf httpsSchemeChars
      ((httpsSchemeChars ++ v).map Char.toLower) = true := by
    rw [List.map_append, map_toLower_httpsSchemeChars]
    exact List.isPrefixOf_iff_prefix.mpr (List.prefix_append _ _)
  simp only [hasHttpScheme, Bool.or_eq_true]
  right
  exact h

theorem hasHttpScheme_head (u : List Char) (h : hasHttpScheme u = true) :
    ∃ c v, u = c :: v ∧ Char.toLower c = 'h' := by
  match u with
  | [] => simp [hasHttpScheme, httpSchemeChars, httpsSchemeChars,
      List.isPrefixOf] at h
  | c :: v =>
    refine ⟨c, v, rfl, ?_⟩
    simp only [hasHttpScheme, httpSchemeChars, httpsSchemeChars, List.map,
      List.isPrefixOf, Bool.or_eq_true, Bool.and_eq_true, beq_iff_eq] at h
    rcases h with h | h
    · exact h.1.symm
    · exact h.1.symm

theorem hasHttpScheme_not_slash (u : List Char) (h : hasHttpScheme u = true) :
    List.isPrefixOf ['/'] u = false ∧ List.isPrefixOf ['/', '/'] u = false := by
  obtain ⟨c, v, rfl, hc⟩ := hasHttpScheme_head u h
  have hne : ('/' == c) = false := by
    cases hcc : ('/' == c) with
    | false => rfl
    | true =>
      have : c = '/' := (beq_iff_eq.mp hcc).symm
      subst this
      simp at hc
  constructor
  · simp [List.isPrefixOf, hne]
  · simp [List.isPrefixOf, hne]

theorem normalizeUrl_of_scheme (u : List Char) (h : hasHttpScheme u = true) :
    normalizeUrl u = u := by
  have hne : u.isEmpty = false := by
    obtain ⟨c, v, rfl, _⟩ := hasHttpScheme_head u h
    rfl
  obtain ⟨h1, h2⟩ := hasHttpScheme_not_slash u h
  simp [normalizeUrl, hne, h1, h2, h]

theorem normalizeUrl_scheme_or_empty (u : List Char) :
    normalizeUrl u = [] ∨ hasHttpScheme (normalizeUrl u) = true := by
  by_cases he : u.isEmpty
  · left
    simp [normalizeUrl, he]
  · right
    rw [normalizeUrl]
    simp only [he, if_false]
    by_cases h2 : List.isPrefixOf ['/', '/'] u = true
    · simp only [h2, if_true]
      obtain ⟨w, hw⟩ : ∃ w, u = '/' :: '/' :: w := by
        match u with
        | [] => simp [List.isPrefixOf] at h2
        | [c] =>
          simp only [List.isPrefixOf, Bool.and_eq_true, beq_iff_eq] at h2
          exact absurd h2.2 (by simp [List.isPrefixOf])
        | c1 :: c2 :: w =>
          simp only [List.isPrefixOf, Bool.and_eq_true, beq_iff_eq] at h2
          exact ⟨w, by rw [← h2.1, ← h2.2.1]⟩
      subst hw
      exact hasHttpScheme_httpsScheme_append w
    · simp only [h2, if_false]
      by_cases h3 : List.isPrefixOf ['/'] u = true
      · simp only [h3, if_true]
        have : alibabaOriginChars ++ u =
            httpsSchemeChars ++ (['w', 'w', 'w', '.', 'a', 'l', 'i', 'b',
              'a', 'b', 'a', '.', 'c', 'o', 'm'] ++ u) := by
          simp [alibabaOriginChars, httpsSchemeChars]
        rw [this]
        exact hasHttpScheme_httpsScheme_append _
      · simp only [h3, if_false]
        by_cases h4 : hasHttpScheme u = true
        · simp only [h4, Bool.not_true, if_false]
          exact h4
        · have h4f : hasHttpScheme u = false := by
            cases hh : hasHttpScheme u
            · rfl
            · exact absurd hh h4
          simp only [h4f, Bool.not_false, if_true]
          exact hasHttpScheme_httpsScheme_append u

/-- C6: URL normalization is idempotent: normalizing twice equals normalizing
once, the empty string maps to the empty string, and every non-empty input
normalizes to an absolute URL carrying an http or https scheme. -/
theorem c6_normalizeUrl_idempotent :
    (∀ u : List Char, normalizeUrl (normalizeUrl u) = normalizeUrl u) ∧
      normalizeUrl [] = [] ∧
      (∀ u : List Char, u ≠ [] → hasHttpScheme (normalizeUrl u) = true) := by
  have hempty : normalizeUrl [] = [] := by rfl
  have hnonempty : ∀ u : List Char, u ≠ [] →
      hasHttpScheme (normalizeUrl u) = true := by
    intro u hu
    rcases normalizeUrl_scheme_or_empty u with h | h
    · exfalso
      rw [normalizeUrl] at h
      have he : u.isEmpty = false := by
        cases u with
        | nil => exact absurd rfl hu
        | cons c v => rfl
      simp only [he, if_false] at h
      by_cases h2 : List.isPrefixOf ['/', '/'] u = true
      · simp [h2] at h
      · simp only [h2, if_false] at h
        by_cases h3 : List.isPrefixOf ['/'] u = true
        · simp only [h3, if_true] at h
          exact absurd h (by simp [alibabaOriginChars])
        · simp only [h3, if_false] at h
          by_cases h4 : hasHttpScheme u
          · simp only [h4, Bool.not_true, if_false] at h
            exact hu h
          · have h4f : hasHttpScheme u = false := by
              cases hh : hasHttpScheme u
              · rfl
              · exact absurd hh h4
            simp only [h4f, Bool.not_false, if_true] at h
            exact absurd h (by simp [httpsSchemeChars])
    · exact h
  refine ⟨?_, hempty, hnonempty⟩
  intro u
  rcases normalizeUrl_scheme_or_empty u with h | h
  · rw [h, hempty]
  · exact normalizeUrl_of_scheme _ h

/-- Witness for C6 at concrete inputs: a protocol-relative URL normalizes to
an https URL and a second normalization leaves it unchanged. -/
theorem c6_normalizeUrl_idempotent_witness :
    normalizeUrl (normalizeUrl ['/', '/', 'a', '.', 'b']) =
        normalizeUrl ['/', '/', 'a', '.', 'b'] ∧
      (['/', '/', 'a', '.', 'b'] : List Char) ≠ [] ∧
      hasHttpScheme (normalizeUrl ['/', '/', 'a', '.', 'b']) = true :=
  ⟨c6_normalizeUrl_idempotent.1 ['/', '/', 'a', '.', 'b'], by decide,
    c6_normalizeUrl_idempotent.2.2 ['/', '/', 'a', '.', 'b'] (by decide)⟩

theorem processSupplierCard_some_name (card : CardData) (idx : Nat)
    (r : SupplierInfo) (h : processSupplierCard card idx = some r) :
    r.englishName ≠ [] := by
  simp only [processSupplierCard] at h
  split at h
  · exact Option.noConfusion h
  · split at h
    · exact Option.noConfusion h
    · rename_i hn
      injection h with h2
      subst h2
      intro hcon
      have hcon2 : orEmptyTrim card.nameText = [] := hcon
      exact hn (by rw [hcon2]; rfl)

theorem processSupplierCard_empty_name (card : CardData) (idx : Nat)
    (h : orEmptyTrim card.nameText = []) :
    processSupplierCard card idx = none := by
  rw [processSupplierCard]
  by_cases ht : card.throws
  · simp [ht]
  · simp [ht, h]

theorem mem_processAll_source (pn : Nat) :
    ∀ (cards : List CardData) (pos : Nat) (r : SupplierInfo),
      r ∈ processAll pn pos cards →
      ∃ c i, processSupplierCard c i = some r := by
  intro cards
  induction cards with
  | nil => intro pos r h; simp [processAll] at h
  | cons c rest ih =>
    intro pos r h
    rw [processAll] at h
    cases hc : processSupplierCard c ((pn - 1) * 20 + pos + 1) with
    | some v =>
      rw [hc] at h
      rcases List.mem_cons.mp h with h | h
      · exact ⟨c, (pn - 1) * 20 + pos + 1, by rw [hc, h]⟩
      · exact ih (pos + 1) r h
    | none =>
      rw [hc] at h
      exact ih (pos + 1) r h

theorem processAll_append (pn : Nat) (xs : List CardData) :
    ∀ (ys : List CardData) (i : Nat),
      processAll pn i (xs ++ ys) =
        processAll pn i xs ++ processAll pn (i + xs.length) ys := by
  induction xs with
  | nil => intro ys i; simp [processAll]
  | cons c rest ih =>
    intro ys i
    simp only [List.cons_append, processAll, List.append_eq]
    cases processSupplierCard c ((pn - 1) * 20 + i + 1) with
    | some r =>
      simp only [List.cons_append, List.length_cons]
      rw [ih ys (i + 1)]
      have : i + 1 + rest.length = i + (rest.length + 1) := by omega
      rw [this]
    | none =>
      simp only [List.length_cons]
      rw [ih ys (i + 1)]
      have : i + 1 + rest.length = i + (rest.length + 1) := by omega
      rw [this]

theorem processAll_chunk (pn i : Nat) (c : CardData) (rest : List CardData) :
    processAll pn i (c :: rest) =
      processAll pn i (c :: rest.take 4) ++
        processAll pn (i + 5) (rest.drop 4) := by
  conv_lhs => rw [← List.take_append_drop 4 rest]
  rw [show (c :: (rest.take 4 ++ rest.drop 4)) =
    (c :: rest.take 4) ++ rest.drop 4 from rfl]
  rw [processAll_append]
  by_cases h : 4 ≤ rest.length
  · have hl : (c :: rest.take 4).length = 5 := by
      simp [List.length_take]
      omega
    rw [hl]
  · have hd : rest.drop 4 = [] := List.drop_eq_nil_of_le (by omega)
    rw [hd]
    simp [processAll]

theorem extractBatches_noFail (pg : ExtractionPage)
    (hf : ∀ j, pg.interBatchFail j = false) (pn : Nat) :
    ∀ (n : Nat) (remaining : List CardData), remaining.length ≤ n →
      ∀ (i : Nat) (acc : List SupplierInfo),
        extractBatches pg pn i remaining acc =
          Except.ok (acc ++ processAll pn i remaining) := by
  intro n
  induction n with
  | zero =>
    intro remaining h i acc
    have : remaining = [] := List.eq_nil_of_length_eq_zero (Nat.le_zero.mp h)
    subst this
    simp [extractBatches, processAll]
  | succ n ih =>
    intro remaining h i acc
    match remaining with
    | [] => simp [extractBatches, processAll]
    | c :: rest =>
      rw [extractBatches]
      simp only [hf, Bool.false_eq_true, if_false]
      rw [ih (rest.drop 4)
        (by simp only [List.length_drop]; simp only [List.length_cons] at h; omega)
        (i + 5) (acc ++ processAll pn i (c :: rest.take 4))]
      rw [List.append_assoc, ← processAll_chunk]

theorem extractBatches_ok_mem (pg : ExtractionPage) (pn : Nat) :
    ∀ (n : Nat) (remaining : List CardData), remaining.length ≤ n →
      ∀ (i : Nat) (acc out : List SupplierInfo),
        extractBatches pg pn i remaining acc = Except.ok out →
        ∀ r ∈ out, r ∈ acc ∨ ∃ c ix, processSupplierCard c ix = some r := by
  intro n
  induction n with
  | zero =>
    intro remaining h i acc out hok r hr
    have : remaining = [] := List.eq_nil_of_length_eq_zero (Nat.le_zero.mp h)
    subst this
    rw [extractBatches] at hok
    injection hok with h2
    subst h2
    exact Or.inl hr
  | succ n ih =>
    intro remaining h i acc out hok r hr
    match remaining with
    | [] =>
      rw [extractBatches] at hok
      injection hok with h2
      subst h2
      exact Or.inl hr
    | c :: rest =>
      rw [extractBatches] at hok
      by_cases hfail : pg.interBatchFail i = true
      · rw [if_pos hfail] at hok
        exact Except.noConfusion hok
      · rw [if_neg hfail] at hok
        have hm := ih (rest.drop 4)
          (by simp only [List.length_drop]; simp only [List.length_cons] at h; omega)
          (i + 5) (acc ++ processAll pn i (c :: rest.take 4)) out hok r hr
        rcases hm with hm | hm
        · rcases List.mem_append.mp hm with hm2 | hm2
          · exact Or.inl hm2
          · exact Or.inr (mem_processAll_source pn _ _ r hm2)
        · exact Or.inr hm

theorem extractSuppliersFromPage_ok_names (pg : ExtractionPage) (pn : Nat)
    (out : List SupplierInfo)
    (h : extractSuppliersFromPage pg pn = Except.ok out) :
    ∀ r ∈ out, r.englishName ≠ [] := by
  intro r hr
  rw [extractSuppliersFromPage] at h
  by_cases h1 : pg.cardsLoaded = true
  · simp only [h1, Bool.not_true, Bool.false_eq_true, if_false] at h
    by_cases h2 : pg.cards.isEmpty = true
    · rw [if_pos h2] at h
      injection h with h3
      subst h3
      exact absurd hr (List.not_mem_nil r)
    · rw [if_neg h2] at h
      have := extractBatches_ok_mem pg pn pg.cards.length pg.cards
        (Nat.le_refl _) 0 [] out h r hr
      rcases this with hm | ⟨c, ix, hc⟩
      · exact absurd hm (List.not_mem_nil r)
      · exact processSupplierCard_some_name c ix r hc
  · have h1f : pg.cardsLoaded = false := by
      cases hb : pg.cardsLoaded
      · rfl
      · exact absurd hb h1
    simp only [h1f, Bool.not_false, if_true] at h
    injection h with h3
    subst h3
    exact absurd hr (List.not_mem_nil r)

theorem extractSuppliersWithRetry_ok_names (pages : Nat → ExtractionPage)
    (pn : Nat) (out : List SupplierInfo)
    (h : extractSuppliersWithRetry pages pn = Except.ok out) :
    ∀ r ∈ out, r.englishName ≠ [] := by
  rw [extractSuppliersWithRetry] at h
  cases h0 : extractSuppliersFromPage (pages 0) pn with
  | ok v =>
    rw [h0] at h
    injection h with h2
    exact h2 ▸ extractSuppliersFromPage_ok_names (pages 0) pn v h0
  | error e =>
    rw [h0] at h
    exact extractSuppliersFromPage_ok_names (pages 1) pn out h

theorem extractFromPage_throwAfterFive :
    extractSuppliersFromPage throwAfterFivePage 1 = Except.error () := by
  have h0 : extractSuppliersFromPage throwAfterFivePage 1 =
      extractBatches throwAfterFivePage 1 0
        (plainCard :: List.replicate 5 plainCard) [] := rfl
  rw [h0, extractBatches]
  simp [throwAfterFivePage]

theorem extractRetry_throwAfterFive :
    extractSuppliersWithRetry (fun _ => throwAfterFivePage) 1 =
      Except.error () := by
  simp only [extractSuppliersWithRetry, extractFromPage_throwAfterFive]

/-- C1 counterexample: a page of six parseable cards whose inter-batch wait
after the first batch of five rejects.  Five of the six cards parse
successfully, yet the extraction rethrows and the retry wrapper, failing
again, propagates the exception to the crawl loop instead of returning the
five already-parsed records. -/
theorem c1_counterexample_extraction_throw :
    (processAll 1 0 ((List.replicate 6 plainCard).take 5)).length = 5 ∧
      extractSuppliersFromPage throwAfterFivePage 1 = Except.error () ∧
      extractSuppliersWithRetry (fun _ => throwAfterFivePage) 1 =
        Except.error () :=
  ⟨rfl, extractFromPage_throwAfterFive, extractRetry_throwAfterFive⟩

/-- C1 amended: card-level failures are tolerated — when no inter-batch wait
rejects, the batch returned is exactly the in-order list of successfully
parsed card records, with unparseable cards dropped; but when the
page-level extraction rejects, the partial records are discarded and, after
the single further retry attempt, the exception propagates to the crawl
loop. -/
theorem c1_extraction_returns_parsed_records :
    (∀ (pg : ExtractionPage) (pn : Nat),
        (∀ j, pg.interBatchFail j = false) →
        extractSuppliersFromPage pg pn =
          Except.ok (if pg.cardsLoaded then processAll pn 0 pg.cards else [])) ∧
      (∀ (pages : Nat → ExtractionPage) (pn : Nat),
        extractSuppliersFromPage (pages 0) pn = Except.error () →
        extractSuppliersWithRetry pages pn =
          extractSuppliersFromPage (pages 1) pn) := by
  constructor
  · intro pg pn hf
    rw [extractSuppliersFromPage]
    by_cases h1 : pg.cardsLoaded = true
    · simp only [h1, Bool.not_true, Bool.false_eq_true, if_false, if_true]
      by_cases h2 : pg.cards.isEmpty = true
      · have : pg.cards = [] := by
          cases hc : pg.cards
          · rfl
          · rw [hc] at h2; exact absurd h2 (by simp [List.isEmpty])
        rw [if_pos h2, this]
        rfl
      · rw [if_neg h2]
        rw [extractBatches_noFail pg hf pn pg.cards.length pg.cards
          (Nat.le_refl _) 0 []]
        rfl
    · have h1f : pg.cardsLoaded = false := by
        cases hb : pg.cardsLoaded
        · rfl
        · exact absurd hb h1
      simp only [h1f, Bool.not_false, if_true, Bool.false_eq_true, if_false]
  · intro pages pn h0
    rw [extractSuppliersWithRetry, h0]

/-- Witness for C1's amended theorem at concrete inputs: with no inter-batch
rejection a six-card page returns all six parsed records, and with the
throwing page both attempts fail so the retry result is the second
attempt's rejection. -/
theorem c1_extraction_returns_parsed_records_witness :
    extractSuppliersFromPage
        { cardsLoaded := true, cards := List.replicate 6 plainCard,
          interBatchFail := fun _ => false } 1 =
        Except.ok (processAll 1 0 (List.replicate 6 plainCard)) ∧
      extractSuppliersWithRetry (fun _ => throwAfterFivePage) 1 =
        extractSuppliersFromPage throwAfterFivePage 1 := by
  constructor
  · have := c1_extraction_returns_parsed_records.1
      { cardsLoaded := true, cards := List.replicate 6 plainCard,
        interBatchFail := fun _ => false } 1 (fun _ => rfl)
    simpa using this
  · exact c1_extraction_returns_parsed_records.2 (fun _ => throwAfterFivePage) 1
      extractFromPage_throwAfterFive

/-- C2: evaluation at the failing input.  On a fresh service, a first call to
the stream API passes the busy guard and starts the page loop; because the
source never assigns `activeSearchTask`, a second call issued while the
first is still active also passes the guard and starts a second concurrent
page loop instead of being rejected as busy. -/
theorem c2_second_search_not_rejected :
    (searchSuppliersStreamStart { activeSearchTask := none }).1 =
        StartOutcome.loopStarted ∧
      (searchSuppliersStreamStart
          (searchSuppliersStreamStart { activeSearchTask := none }).2).1 =
        StartOutcome.loopStarted ∧
      (searchSuppliersStreamStart
          (searchSuppliersStreamStart { activeSearchTask := none }).2).1 ≠
        StartOutcome.busyRejected := by
  refine ⟨rfl, rfl, ?_⟩
  decide

/-- C9: whenever the pool holds zero pages, a health-check tick returns the
state unchanged, whatever the health probe would have reported — so an idle
pool is never re-initialized as a result of a health-check failure. -/
theorem c9_health_check_skips_idle_pool (s : PoolState) (healthy : Bool)
    (h : s.pages = 0) : healthCheckTick s healthy = s := by
  rw [healthCheckTick, if_pos h]

/-- Witness for C9: an idle READY pool is left untouched by an unhealthy
tick. -/
theorem c9_health_check_skips_idle_pool_witness :
    (⟨0, BrowserSvcState.ready, none, 0⟩ : PoolState).pages = 0 ∧
      healthCheckTick ⟨0, BrowserSvcState.ready, none, 0⟩ false =
        ⟨0, BrowserSvcState.ready, none, 0⟩ :=
  ⟨rfl, c9_health_check_skips_idle_pool ⟨0, BrowserSvcState.ready, none, 0⟩
    false rfl⟩

theorem searchFold_eq_flatten (l : List (List SupplierInfo)) :
    ∀ a : List SupplierInfo,
      l.foldl (fun acc b => acc ++ b) a = a ++ l.flatten := by
  induction l with
  | nil => intro a; simp
  | cons x xs ih => intro a; simp [ih]

/-- C10: the aggregated API equals the streaming API: for every service
state, environment, page cap and iteration budget, `searchSuppliers` returns
exactly the concatenation, in yield order, of the batches produced by
`searchSuppliersStream` with an undefined callback. -/
theorem c10_searchSuppliers_eq_stream_join (s : AlibabaServiceState)
    (ocr : Bool) (env : Nat → Nat → PageOutcome) (maxPages : Option Nat)
    (fuel : Nat) :
    searchSuppliers s ocr env maxPages fuel =
      (searchSuppliersStream s ocr env maxPages fuel).flatten := by
  rw [searchSuppliers, searchFold_eq_flatten]
  rfl

/-- C5: after closing the last page at time `t` on a READY pool, a teardown
is scheduled for `t` plus the five-minute grace period; a timer evaluated
before that deadline does nothing; once the deadline has passed with no new
acquisition the browser is torn down (state UNINITIALIZED); and if a new
page is acquired first, the pending teardown is cancelled, the service stays
in its state, and a later timer evaluation is a no-op — no teardown
occurs. -/
theorem c5_pool_idle_cleanup (s : PoolState) (t : Nat)
    (h1 : s.pages = 1) (hready : s.browserState = BrowserSvcState.ready) :
    (closePage s t).pendingCleanupAt = some (t + IDLE_CLEANUP_DELAY) ∧
      (∀ t2, t2 < t + IDLE_CLEANUP_DELAY →
        idleCleanupFire (closePage s t) t2 = closePage s t) ∧
      (∀ t2, t + IDLE_CLEANUP_DELAY ≤ t2 →
        (idleCleanupFire (closePage s t) t2).browserState =
          BrowserSvcState.uninit) ∧
      (createPage (closePage s t)).pendingCleanupAt = none ∧
      (createPage (closePage s t)).browserState = s.browserState ∧
      (∀ t3, idleCleanupFire (createPage (closePage s t)) t3 =
        createPage (closePage s t)) := by
  have hclose : closePage s t =
      { s with pages := 0,
               pendingCleanupAt := some (t + IDLE_CLEANUP_DELAY) } := by
    rw [closePage, if_neg (by omega)]
    simp [h1, scheduleIdleCleanup]
  refine ⟨?_, ?_, ?_, ?_, ?_, ?_⟩
  · rw [hclose]
  · intro t2 ht2
    have hnle : ¬ (t + IDLE_CLEANUP_DELAY ≤ t2) := by omega
    rw [hclose]
    simp [idleCleanupFire, hnle]
  · intro t2 ht2
    rw [hclose]
    simp [idleCleanupFire, ht2, hready]
  · rw [hclose]
    rfl
  · rw [hclose]
    rfl
  · intro t3
    rw [hclose]
    rfl

/-- Witness for C5: a one-page READY pool, last page closed at time 0: the
teardown deadline is the grace period itself, and firing the timer at the
deadline tears the browser down. -/
theorem c5_pool_idle_cleanup_witness :
    (closePage ⟨1, BrowserSvcState.ready, none, 0⟩ 0).pendingCleanupAt =
        some (0 + IDLE_CLEANUP_DELAY) ∧
      (idleCleanupFire (closePage ⟨1, BrowserSvcState.ready, none, 0⟩ 0)
          IDLE_CLEANUP_DELAY).browserState = BrowserSvcState.uninit :=
  ⟨(c5_pool_idle_cleanup ⟨1, BrowserSvcState.ready, none, 0⟩ 0 rfl rfl).1,
    (c5_pool_idle_cleanup ⟨1, BrowserSvcState.ready, none, 0⟩ 0 rfl rfl).2.2.1
      IDLE_CLEANUP_DELAY (by omega)⟩

theorem crawlLoop_zero (ocr : Bool) (env : Nat → PageOutcome)
    (limit step p : Nat) :
    crawlLoop ocr env limit 0 step p = ⟨[], [], LoopEnd.fuelOut⟩ := rfl

theorem crawlLoop_capped (ocr : Bool) (env : Nat → PageOutcome)
    (limit fuel step p : Nat) (hp : p > limit) :
    crawlLoop ocr env limit (fuel + 1) step p =
      ⟨[], [], LoopEnd.completed⟩ := by
  rw [crawlLoop, if_pos hp]

theorem crawlLoop_navFail (ocr : Bool) (env : Nat → PageOutcome)
    (limit fuel step p : Nat) (hp : ¬ p > limit)
    (henv : env step = PageOutcome.navFail) :
    crawlLoop ocr env limit (fuel + 1) step p =
      ⟨(crawlLoop ocr env limit fuel (step + 1) (p + 1)).yields,
       p :: (crawlLoop ocr env limit fuel (step + 1) (p + 1)).visited,
       (crawlLoop ocr env limit fuel (step + 1) (p + 1)).ending⟩ := by
  rw [crawlLoop, if_neg hp, henv]

theorem crawlLoop_noMore (ocr : Bool) (env : Nat → PageOutcome)
    (limit fuel step p : Nat) (hp : ¬ p > limit)
    (henv : env step = PageOutcome.noMore) :
    crawlLoop ocr env limit (fuel + 1) step p =
      ⟨[], [p], LoopEnd.completed⟩ := by
  rw [crawlLoop, if_neg hp, henv]

theorem crawlLoop_unknown (ocr : Bool) (env : Nat → PageOutcome)
    (limit fuel step p : Nat) (hp : ¬ p > limit)
    (henv : env step = PageOutcome.unknownPage) :
    crawlLoop ocr env limit (fuel + 1) step p =
      ⟨[], [p], LoopEnd.completed⟩ := by
  rw [crawlLoop, if_neg hp, henv]

theorem crawlLoop_throwErr (ocr : Bool) (env : Nat → PageOutcome)
    (limit fuel step p : Nat) (hp : ¬ p > limit)
    (henv : env step = PageOutcome.throwErr) :
    crawlLoop ocr env limit (fuel + 1) step p =
      ⟨[], [p], LoopEnd.errored⟩ := by
  rw [crawlLoop, if_neg hp, henv]

theorem crawlLoop_results_ok (ocr : Bool) (env : Nat → PageOutcome)
    (limit fuel step p : Nat) (ex : Nat → ExtractionPage)
    (batch : List SupplierInfo) (hp : ¬ p > limit)
    (henv : env step = PageOutcome.results ex)
    (hex : extractSuppliersWithRetry ex p = Except.ok batch) :
    crawlLoop ocr env limit (fuel + 1) step p =
      ⟨batch :: (crawlLoop ocr env limit fuel (step + 1) (p + 1)).yields,
       p :: (crawlLoop ocr env limit fuel (step + 1) (p + 1)).visited,
       (crawlLoop ocr env limit fuel (step + 1) (p + 1)).ending⟩ := by
  rw [crawlLoop, if_neg hp]
  simp only [henv]
  rw [hex]

theorem crawlLoop_results_error (ocr : Bool) (env : Nat → PageOutcome)
    (limit fuel step p : Nat) (ex : Nat → ExtractionPage) (hp : ¬ p > limit)
    (henv : env step = PageOutcome.results ex)
    (hex : extractSuppliersWithRetry ex p = Except.error ()) :
    crawlLoop ocr env limit (fuel + 1) step p =
      ⟨[], [p], LoopEnd.errored⟩ := by
  rw [crawlLoop, if_neg hp]
  simp only [henv]
  rw [hex]

theorem crawlLoop_captcha (ocr : Bool) (env : Nat → PageOutcome)
    (limit fuel step p : Nat) (slider ocrS : Bool) (cAt : Nat → Bool)
    (hp : ¬ p > limit)
    (henv : env step = PageOutcome.captcha slider ocrS cAt) :
    crawlLoop ocr env limit (fuel + 1) step p =
      (if handleComplexCaptcha slider ocr ocrS cAt then
        ⟨(crawlLoop ocr env limit fuel (step + 1) p).yields,
         p :: (crawlLoop ocr env limit fuel (step + 1) p).visited,
         (crawlLoop ocr env limit fuel (step + 1) p).ending⟩
      else
        ⟨(crawlLoop ocr env limit fuel (step + 1) (p + 1)).yields,
         p :: (crawlLoop ocr env limit fuel (step + 1) (p + 1)).visited,
         (crawlLoop ocr env limit fuel (step + 1) (p + 1)).ending⟩ :
        LoopResult) := by
  rw [crawlLoop, if_neg hp, henv]

theorem crawlLoop_visited_le (ocr : Bool) (env : Nat → PageOutcome)
    (limit : Nat) :
    ∀ (fuel step p q : Nat),
      q ∈ (crawlLoop ocr env limit fuel step p).visited → q ≤ limit := by
  intro fuel
  induction fuel with
  | zero =>
    intro step p q hq
    rw [crawlLoop_zero] at hq
    exact absurd hq (List.not_mem_nil q)
  | succ fuel ih =>
    intro step p q hq
    by_cases hp : p > limit
    · rw [crawlLoop_capped ocr env limit fuel step p hp] at hq
      exact absurd hq (List.not_mem_nil q)
    · cases henv : env step with
      | navFail =>
        rw [crawlLoop_navFail ocr env limit fuel step p hp henv] at hq
        rcases List.mem_cons.mp hq with rfl | hq2
        · omega
        · exact ih (step + 1) (p + 1) q hq2
      | noMore =>
        rw [crawlLoop_noMore ocr env limit fuel step p hp henv] at hq
        rcases List.mem_cons.mp hq with rfl | hq2
        · omega
        · exact absurd hq2 (List.not_mem_nil q)
      | unknownPage =>
        rw [crawlLoop_unknown ocr env limit fuel step p hp henv] at hq
        rcases List.mem_cons.mp hq with rfl | hq2
        · omega
        · exact absurd hq2 (List.not_mem_nil q)
      | throwErr =>
        rw [crawlLoop_throwErr ocr env limit fuel step p hp henv] at hq
        rcases List.mem_cons.mp hq with rfl | hq2
        · omega
        · exact absurd hq2 (List.not_mem_nil q)
      | results ex =>
        cases hex : extractSuppliersWithRetry ex p with
        | ok batch =>
          rw [crawlLoop_results_ok ocr env limit fuel step p ex batch hp henv
            hex] at hq
          rcases List.mem_cons.mp hq with rfl | hq2
          · omega
          · exact ih (step + 1) (p + 1) q hq2
        | error e =>
          cases e
          rw [crawlLoop_results_error ocr env limit fuel step p ex hp henv
            hex] at hq
          rcases List.mem_cons.mp hq with rfl | hq2
          · omega
          · exact absurd hq2 (List.not_mem_nil q)
      | captcha slider ocrS cAt =>
        rw [crawlLoop_captcha ocr env limit fuel step p slider ocrS cAt hp
          henv] at hq
        by_cases hcap : handleComplexCaptcha slider ocr ocrS cAt = true
        · rw [if_pos hcap] at hq
          rcases List.mem_cons.mp hq with rfl | hq2
          · omega
          · exact ih (step + 1) p q hq2
        · rw [if_neg hcap] at hq
          rcases List.mem_cons.mp hq with rfl | hq2
          · omega
          · exact ih (step + 1) (p + 1) q hq2

theorem crawlLoop_yields_len (ocr : Bool) (env : Nat → PageOutcome)
    (limit : Nat) :
    ∀ (fuel step p : Nat), p ≤ limit + 1 →
      (crawlLoop ocr env limit fuel step p).yields.length + p ≤ limit + 1 := by
  intro fuel
  induction fuel with
  | zero =>
    intro step p hple
    rw [crawlLoop_zero]
    simpa using hple
  | succ fuel ih =>
    intro step p hple
    by_cases hp : p > limit
    · rw [crawlLoop_capped ocr env limit fuel step p hp]
      simpa using hple
    · cases henv : env step with
      | navFail =>
        rw [crawlLoop_navFail ocr env limit fuel step p hp henv]
        have := ih (step + 1) (p + 1) (by omega)
        simp only [] at this ⊢
        omega
      | noMore =>
        rw [crawlLoop_noMore ocr env limit fuel step p hp henv]
        simp only [List.length_nil]
        omega
      | unknownPage =>
        rw [crawlLoop_unknown ocr env limit fuel step p hp henv]
        simp only [List.length_nil]
        omega
      | throwErr =>
        rw [crawlLoop_throwErr ocr env limit fuel step p hp henv]
        simp only [List.length_nil]
        omega
      | results ex =>
        cases hex : extractSuppliersWithRetry ex p with
        | ok batch =>
          rw [crawlLoop_results_ok ocr env limit fuel step p ex batch hp henv
            hex]
          have := ih (step + 1) (p + 1) (by omega)
          simp only [List.length_cons]
          omega
        | error e =>
          cases e
          rw [crawlLoop_results_error ocr env limit fuel step p ex hp henv
            hex]
          simp only [List.length_nil]
          omega
      | captcha slider ocrS cAt =>
        rw [crawlLoop_captcha ocr env limit fuel step p slider ocrS cAt hp
          henv]
        by_cases hcap : handleComplexCaptcha slider ocr ocrS cAt = true
        · rw [if_pos hcap]
          have := ih (step + 1) p (by omega)
          simp only [] at this ⊢
          omega
        · rw [if_neg hcap]
          have := ih (step + 1) (p + 1) (by omega)
          simp only [] at this ⊢
          omega

theorem crawlLoop_yields_from_extract (ocr : Bool) (env : Nat → PageOutcome)
    (limit : Nat) :
    ∀ (fuel step p : Nat) (batch : List SupplierInfo),
      batch ∈ (crawlLoop ocr env limit fuel step p).yields →
      ∃ (ex : Nat → ExtractionPage) (pn : Nat),
        extractSuppliersWithRetry ex pn = Except.ok batch := by
  intro fuel
  induction fuel with
  | zero =>
    intro step p batch hb
    rw [crawlLoop_zero] at hb
    exact absurd hb (List.not_mem_nil batch)
  | succ fuel ih =>
    intro step p batch hb
    by_cases hp : p > limit
    · rw [crawlLoop_capped ocr env limit fuel step p hp] at hb
      exact absurd hb (List.not_mem_nil batch)
    · cases henv : env step with
      | navFail =>
        rw [crawlLoop_navFail ocr env limit fuel step p hp henv] at hb
        exact ih (step + 1) (p + 1) batch hb
      | noMore =>
        rw [crawlLoop_noMore ocr env limit fuel step p hp henv] at hb
        exact absurd hb (List.not_mem_nil batch)
      | unknownPage =>
        rw [crawlLoop_unknown ocr env limit fuel step p hp henv] at hb
        exact absurd hb (List.not_mem_nil batch)
      | throwErr =>
        rw [crawlLoop_throwErr ocr env limit fuel step p hp henv] at hb
        exact absurd hb (List.not_mem_nil batch)
      | results ex =>
        cases hex : extractSuppliersWithRetry ex p with
        | ok b =>
          rw [crawlLoop_results_ok ocr env limit fuel step p ex b hp henv
            hex] at hb
          rcases List.mem_cons.mp hb with rfl | hb2
          · exact ⟨ex, p, hex⟩
          · exact ih (step + 1) (p + 1) batch hb2
        | error e =>
          cases e
          rw [crawlLoop_results_error ocr env limit fuel step p ex hp henv
            hex] at hb
          exact absurd hb (List.not_mem_nil batch)
      | captcha slider ocrS cAt =>
        rw [crawlLoop_captcha ocr env limit fuel step p slider ocrS cAt hp
          henv] at hb
        by_cases hcap : handleComplexCaptcha slider ocr ocrS cAt = true
        · rw [if_pos hcap] at hb
          exact ih (step + 1) p batch hb
        · rw [if_neg hcap] at hb
          exact ih (step + 1) (p + 1) batch hb

theorem runAttempts_completed (ocr : Bool) (env : Nat → Nat → PageOutcome)
    (limit fuel n idx : Nat)
    (h : (crawlLoop ocr (env idx) limit fuel 0 1).ending =
      LoopEnd.completed) :
    runAttempts ocr env limit fuel (n + 1) idx =
      ⟨(crawlLoop ocr (env idx) limit fuel 0 1).yields,
       (crawlLoop ocr (env idx) limit fuel 0 1).visited,
       LoopEnd.completed⟩ := by
  rw [runAttempts.eq_def]
  simp only [h]

theorem runAttempts_fuelOut (ocr : Bool) (env : Nat → Nat → PageOutcome)
    (limit fuel n idx : Nat)
    (h : (crawlLoop ocr (env idx) limit fuel 0 1).ending = LoopEnd.fuelOut) :
    runAttempts ocr env limit fuel (n + 1) idx =
      ⟨(crawlLoop ocr (env idx) limit fuel 0 1).yields,
       (crawlLoop ocr (env idx) limit fuel 0 1).visited,
       LoopEnd.fuelOut⟩ := by
  rw [runAttempts.eq_def]
  simp only [h]

theorem runAttempts_errored_last (ocr : Bool) (env : Nat → Nat → PageOutcome)
    (limit fuel idx : Nat)
    (h : (crawlLoop ocr (env idx) limit fuel 0 1).ending = LoopEnd.errored) :
    runAttempts ocr env limit fuel (0 + 1) idx =
      ⟨(crawlLoop ocr (env idx) limit fuel 0 1).yields,
       (crawlLoop ocr (env idx) limit fuel 0 1).visited,
       LoopEnd.errored⟩ := by
  rw [runAttempts.eq_def]
  simp only [h]

theorem runAttempts_errored_retry (ocr : Bool) (env : Nat → Nat → PageOutcome)
    (limit fuel m idx : Nat)
    (h : (crawlLoop ocr (env idx) limit fuel 0 1).ending = LoopEnd.errored) :
    runAttempts ocr env limit fuel (m + 1 + 1) idx =
      ⟨(crawlLoop ocr (env idx) limit fuel 0 1).yields ++
         (runAttempts ocr env limit fuel (m + 1) (idx + 1)).yields,
       (crawlLoop ocr (env idx) limit fuel 0 1).visited ++
         (runAttempts ocr env limit fuel (m + 1) (idx + 1)).visited,
       (runAttempts ocr env limit fuel (m + 1) (idx + 1)).ending⟩ := by
  rw [runAttempts.eq_def]
  simp only [h]

theorem runAttempts_visited_le (ocr : Bool) (env : Nat → Nat → PageOutcome)
    (limit fuel : Nat) :
    ∀ (n idx q : Nat),
      q ∈ (runAttempts ocr env limit fuel n idx).visited → q ≤ limit := by
  intro n
  induction n with
  | zero =>
    intro idx q hq
    exact absurd hq (List.not_mem_nil q)
  | succ n ih =>
    intro idx q hq
    cases hend : (crawlLoop ocr (env idx) limit fuel 0 1).ending with
    | completed =>
      rw [runAttempts_completed ocr env limit fuel n idx hend] at hq
      exact crawlLoop_visited_le ocr (env idx) limit fuel 0 1 q hq
    | fuelOut =>
      rw [runAttempts_fuelOut ocr env limit fuel n idx hend] at hq
      exact crawlLoop_visited_le ocr (env idx) limit fuel 0 1 q hq
    | errored =>
      match n with
      | 0 =>
        rw [runAttempts_errored_last ocr env limit fuel idx hend] at hq
        exact crawlLoop_visited_le ocr (env idx) limit fuel 0 1 q hq
      | m + 1 =>
        rw [runAttempts_errored_retry ocr env limit fuel m idx hend] at hq
        rcases List.mem_append.mp hq with hq2 | hq2
        · exact crawlLoop_visited_le ocr (env idx) limit fuel 0 1 q hq2
        · exact ih (idx + 1) q hq2

theorem runAttempts_yields_len (ocr : Bool) (env : Nat → Nat → PageOutcome)
    (limit fuel : Nat) (hlim : 1 ≤ limit) :
    ∀ (n idx : Nat),
      (runAttempts ocr env limit fuel n idx).yields.length ≤ n * limit := by
  intro n
  induction n with
  | zero =>
    intro idx
    simp [runAttempts]
  | succ n ih =>
    intro idx
    have hone : (crawlLoop ocr (env idx) limit fuel 0 1).yields.length ≤
        limit := by
      have := crawlLoop_yields_len ocr (env idx) limit fuel 0 1 (by omega)
      omega
    cases hend : (crawlLoop ocr (env idx) limit fuel 0 1).ending with
    | completed =>
      rw [runAttempts_completed ocr env limit fuel n idx hend]
      calc (crawlLoop ocr (env idx) limit fuel 0 1).yields.length
          ≤ limit := hone
        _ ≤ (n + 1) * limit := by
            have : 1 * limit ≤ (n + 1) * limit :=
              Nat.mul_le_mul_right limit (by omega)
            omega
    | fuelOut =>
      rw [runAttempts_fuelOut ocr env limit fuel n idx hend]
      calc (crawlLoop ocr (env idx) limit fuel 0 1).yields.length
          ≤ limit := hone
        _ ≤ (n + 1) * limit := by
            have : 1 * limit ≤ (n + 1) * limit :=
              Nat.mul_le_mul_right limit (by omega)
            omega
    | errored =>
      match n with
      | 0 =>
        rw [runAttempts_errored_last ocr env limit fuel idx hend]
        simpa using hone
      | m + 1 =>
        rw [runAttempts_errored_retry ocr env limit fuel m idx hend]
        have h2 := ih (idx + 1)
        simp only [List.length_append]
        have hmul : (m + 1 + 1) * limit = (m + 1) * limit + limit := by ring
        omega

theorem runAttempts_yields_from_extract (ocr : Bool)
    (env : Nat → Nat → PageOutcome) (limit fuel : Nat) :
    ∀ (n idx : Nat) (batch : List SupplierInfo),
      batch ∈ (runAttempts ocr env limit fuel n idx).yields →
      ∃ (ex : Nat → ExtractionPage) (pn : Nat),
        extractSuppliersWithRetry ex pn = Except.ok batch := by
  intro n
  induction n with
  | zero =>
    intro idx batch hb
    exact absurd hb (List.not_mem_nil batch)
  | succ n ih =>
    intro idx batch hb
    cases hend : (crawlLoop ocr (env idx) limit fuel 0 1).ending with
    | completed =>
      rw [runAttempts_completed ocr env limit fuel n idx hend] at hb
      exact crawlLoop_yields_from_extract ocr (env idx) limit fuel 0 1 batch hb
    | fuelOut =>
      rw [runAttempts_fuelOut ocr env limit fuel n idx hend] at hb
      exact crawlLoop_yields_from_extract ocr (env idx) limit fuel 0 1 batch hb
    | errored =>
      match n with
      | 0 =>
        rw [runAttempts_errored_last ocr env limit fuel idx hend] at hb
        exact crawlLoop_yields_from_extract ocr (env idx) limit fuel 0 1
          batch hb
      | m + 1 =>
        rw [runAttempts_errored_retry ocr env limit fuel m idx hend] at hb
        rcases List.mem_append.mp hb with hb2 | hb2
        · exact crawlLoop_yields_from_extract ocr (env idx) limit fuel 0 1
            batch hb2
        · exact ih (idx + 1) batch hb2

/-- C3 counterexample: with page cap 2, an environment whose first attempt
yields the page-1 batch and then hits an unexpected exception, and whose
second attempt completes pages 1 and 2, makes the stream yield three
batches in total — more than the cap N = 2 — because the keyword-level
retry restarts the page counter at 1 after batches were already delivered
to the consumer. -/
theorem c3_counterexample_retry_reyields :
    (executeSupplierSearchStream false retryEnv (some 2) 5).yields.length =
      3 := by
  rfl

/-- C3 amended: no page with number greater than the cap `N` is ever
navigated to or extracted; each of the up-to-three attempts of the
keyword-level retry yields at most `N` batches, so the stream as a whole
yields at most `3 * N` batches (across retries the already-delivered batches
of a failed attempt are re-earned by the restarted attempt). -/
theorem c3_pagination_caps (ocr : Bool) (env : Nat → Nat → PageOutcome)
    (N fuel : Nat) (hN : 0 < N) :
    (∀ q ∈ (executeSupplierSearchStream ocr env (some N) fuel).visited,
        q ≤ N) ∧
      (∀ idx, (crawlLoop ocr (env idx) N fuel 0 1).yields.length ≤ N) ∧
      (executeSupplierSearchStream ocr env (some N) fuel).yields.length ≤
        3 * N := by
  have hlim : pageLimitOf (some N) = N := by
    rw [pageLimitOf, if_pos hN]
  refine ⟨?_, ?_, ?_⟩
  · intro q hq
    rw [executeSupplierSearchStream, hlim] at hq
    exact runAttempts_visited_le ocr env N fuel 3 0 q hq
  · intro idx
    have := crawlLoop_yields_len ocr (env idx) N fuel 0 1 (by omega)
    omega
  · rw [executeSupplierSearchStream, hlim]
    exact runAttempts_yields_len ocr env N fuel (by omega) 3 0

/-- Witness for C3's amended theorem at the concrete retry environment with
cap 2. -/
theorem c3_pagination_caps_witness :
    (∀ q ∈ (executeSupplierSearchStream false retryEnv (some 2) 5).visited,
        q ≤ 2) ∧
      (executeSupplierSearchStream false retryEnv (some 2) 5).yields.length ≤
        3 * 2 :=
  ⟨(c3_pagination_caps false retryEnv 2 5 (by decide)).1,
    (c3_pagination_caps false retryEnv 2 5 (by decide)).2.2⟩

/-- C4: a card whose resolved company name is empty is dropped
(`processSupplierCard` returns null); every record `processSupplierCard`
does produce carries a non-empty name; and therefore every record in every
batch yielded by the crawl stream has a non-empty name. -/
theorem c4_no_empty_name :
    (∀ (card : CardData) (idx : Nat), orEmptyTrim card.nameText = [] →
        processSupplierCard card idx = none) ∧
      (∀ (card : CardData) (idx : Nat) (r : SupplierInfo),
        processSupplierCard card idx = some r → r.englishName ≠ []) ∧
      (∀ (ocr : Bool) (env : Nat → Nat → PageOutcome) (maxPages : Option Nat)
          (fuel : Nat) (batch : List SupplierInfo) (r : SupplierInfo),
        batch ∈ (executeSupplierSearchStream ocr env maxPages fuel).yields →
        r ∈ batch → r.englishName ≠ []) := by
  refine ⟨processSupplierCard_empty_name, processSupplierCard_some_name, ?_⟩
  intro ocr env maxPages fuel batch r hb hr
  rw [executeSupplierSearchStream] at hb
  obtain ⟨ex, pn, hex⟩ := runAttempts_yields_from_extract ocr env
    (pageLimitOf maxPages) fuel 3 0 batch hb
  exact extractSuppliersWithRetry_ok_names ex pn batch hex r hr

/-- Witness for C4: a card with null text content resolves to the empty name
and is dropped. -/
theorem c4_no_empty_name_witness :
    processSupplierCard
      { nameText := none, hrefAttr := none, throws := false } 7 = none :=
  c4_no_empty_name.1 { nameText := none, hrefAttr := none, throws := false }
    7 rfl

theorem manualWaitLoop_polls_le (captchaAt : Nat → Bool) :
    ∀ (n k : Nat), 36 - k ≤ n → k ≤ 36 →
      (manualWaitLoop captchaAt (5000 * k) k).2 ≤ 36 := by
  intro n
  induction n with
  | zero =>
    intro k h1 h2
    have hk : k = 36 := by omega
    subst hk
    rw [manualWaitLoop, if_pos (by norm_num)]
  | succ n ih =>
    intro k h1 h2
    rw [manualWaitLoop]
    by_cases hb : 180000 ≤ 5000 * k
    · rw [if_pos hb]
      exact h2
    · rw [if_neg hb]
      by_cases hc : captchaAt k = false
      · rw [if_pos hc]
        show k + 1 ≤ 36
        omega
      · rw [if_neg hc]
        have hkk : 5000 * k + 5000 = 5000 * (k + 1) := by ring
        rw [hkk]
        exact ih (k + 1) (by omega) (by omega)

/-- C8: anti-bot remediation cannot hang.  The manual-intervention wait
performs at most 36 classification polls (5 seconds apart inside the fixed
3-minute window, so the wait is bounded; `manualWaitLoop` is moreover a
total function, so the handler always terminates); when the slider and OCR
escalation steps have failed, the challenge handler reports unsolved exactly
when the final classification after the wait still sees the challenge; and
an unsolved challenge makes the crawl loop skip the current page — it
advances to the next page number without yielding anything for the
challenged page. -/
theorem c8_captcha_wait_bounded (captchaAt : Nat → Bool)
    (ocrAvailable : Bool) :
    (promptManualCaptchaResolution captchaAt).2 ≤ 36 ∧
      (handleComplexCaptcha false ocrAvailable false captchaAt = false ↔
        captchaAt (promptManualCaptchaResolution captchaAt).2 = true) ∧
      (∀ (env : Nat → PageOutcome) (limit fuel step p : Nat)
          (slider ocrS : Bool) (cAt : Nat → Bool),
        env step = PageOutcome.captcha slider ocrS cAt →
        handleComplexCaptcha slider ocrAvailable ocrS cAt = false →
        ¬ p > limit →
        crawlLoop ocrAvailable env limit (fuel + 1) step p =
          ⟨(crawlLoop ocrAvailable env limit fuel (step + 1) (p + 1)).yields,
           p :: (crawlLoop ocrAvailable env limit fuel (step + 1)
             (p + 1)).visited,
           (crawlLoop ocrAvailable env limit fuel (step + 1)
             (p + 1)).ending⟩) := by
  refine ⟨?_, ?_, ?_⟩
  · have := manualWaitLoop_polls_le captchaAt 36 0 (by omega) (by omega)
    simpa [promptManualCaptchaResolution] using this
  · simp [handleComplexCaptcha]
  · intro env limit fuel step p slider ocrS cAt henv hcap hp
    rw [crawlLoop_captcha ocrAvailable env limit fuel step p slider ocrS cAt
      hp henv]
    rw [if_neg (by simp [hcap])]

/-- Witness for C8: a page whose challenge is never solved (slider fails, no
OCR, every classification still sees the captcha): the wait is bounded and
the crawl loop at page 1 skips to page 2. -/
theorem c8_captcha_wait_bounded_witness :
    (promptManualCaptchaResolution (fun _ => true)).2 ≤ 36 ∧
      crawlLoop false alwaysCaptchaEnv 3 (0 + 1) 0 1 =
        ⟨(crawlLoop false alwaysCaptchaEnv 3 0 1 2).yields,
         1 :: (crawlLoop false alwaysCaptchaEnv 3 0 1 2).visited,
         (crawlLoop false alwaysCaptchaEnv 3 0 1 2).ending⟩ :=
  ⟨(c8_captcha_wait_bounded (fun _ => true) false).1,
    (c8_captcha_wait_bounded (fun _ => true) false).2.2 alwaysCaptchaEnv 3 0
      0 1 false false (fun _ => true) rfl
      (by simp [handleComplexCaptcha, alwaysCaptchaEnv]) (by omega)⟩

theorem navAttempts_made_ge_one (g : Nat → Bool) (retries d a : Nat)
    (ha : a ≤ retries) : 1 ≤ (navAttempts g retries d a).attemptsMade := by
  rw [navAttempts, dif_neg (by omega)]
  by_cases hg : g a = true
  · rw [if_pos hg]
  · rw [if_neg hg]
    by_cases hlt : a < retries
    · rw [dif_pos hlt]
      show 1 ≤ (navAttempts g retries d (a + 1)).attemptsMade + 1
      omega
    · rw [dif_neg hlt]

theorem navAttempts_made_le (g : Nat → Bool) (retries d : Nat) :
    ∀ (n a : Nat), retries + 1 - a ≤ n →
      (navAttempts g retries d a).attemptsMade ≤ retries + 1 - a := by
  intro n
  induction n with
  | zero =>
    intro a h
    rw [navAttempts, dif_pos (by omega)]
    show (0 : Nat) ≤ retries + 1 - a
    omega
  | succ n ih =>
    intro a h
    by_cases hgt : a > retries
    · rw [navAttempts, dif_pos hgt]
      show (0 : Nat) ≤ retries + 1 - a
      omega
    · rw [navAttempts, dif_neg hgt]
      by_cases hg : g a = true
      · rw [if_pos hg]
        show (1 : Nat) ≤ retries + 1 - a
        omega
      · rw [if_neg hg]
        by_cases hlt : a < retries
        · rw [dif_pos hlt]
          have := ih (a + 1) (by omega)
          show (navAttempts g retries d (a + 1)).attemptsMade + 1 ≤
            retries + 1 - a
          omega
        · rw [dif_neg hlt]
          show (1 : Nat) ≤ retries + 1 - a
          omega

theorem navAttempts_fail_iff (g : Nat → Bool) (retries d : Nat) :
    ∀ (n a : Nat), retries + 1 - a ≤ n →
      ((navAttempts g retries d a).ok = false ↔
        ∀ i, a ≤ i → i ≤ retries → g i = false) := by
  intro n
  induction n with
  | zero =>
    intro a h
    rw [navAttempts, dif_pos (by omega)]
    constructor
    · intro _ i hai hir
      omega
    · intro _
      rfl
  | succ n ih =>
    intro a h
    by_cases hgt : a > retries
    · rw [navAttempts, dif_pos hgt]
      constructor
      · intro _ i hai hir
        omega
      · intro _
        rfl
    · rw [navAttempts, dif_neg hgt]
      by_cases hg : g a = true
      · rw [if_pos hg]
        constructor
        · intro hok
          exact absurd hok (by simp)
        · intro hall
          have := hall a (le_refl a) (by omega)
          rw [hg] at this
          exact absurd this (by simp)
      · rw [if_neg hg]
        have hga : g a = false := Bool.eq_false_iff.mpr hg
        by_cases hlt : a < retries
        · rw [dif_pos hlt]
          have ihh := ih (a + 1) (by omega)
          constructor
          · intro hok i hai hir
            have hok2 : (navAttempts g retries d (a + 1)).ok = false := hok
            rcases Nat.eq_or_lt_of_le hai with rfl | hlt2
            · exact hga
            · exact (ihh.mp hok2) i (by omega) hir
          · intro hall
            exact ihh.mpr (fun i hai hir => hall i (by omega) hir)
        · rw [dif_neg hlt]
          constructor
          · intro _ i hai hir
            have : i = a := by omega
            subst this
            exact hga
          · intro _
            rfl

theorem navAttempts_first_success (g : Nat → Bool) (retries d : Nat) :
    ∀ (n a i : Nat), retries + 1 - a ≤ n → a ≤ i → i ≤ retries →
      g i = true → (∀ j, a ≤ j → j < i → g j = false) →
      (navAttempts g retries d a).ok = true ∧
        (navAttempts g retries d a).attemptsMade = i + 1 - a := by
  intro n
  induction n with
  | zero =>
    intro a i h hai hir hgi hall
    omega
  | succ n ih =>
    intro a i h hai hir hgi hall
    have hgt : ¬ a > retries := by omega
    rw [navAttempts, dif_neg hgt]
    rcases Nat.eq_or_lt_of_le hai with rfl | hlt2
    · rw [if_pos hgi]
      refine ⟨rfl, ?_⟩
      show (1 : Nat) = a + 1 - a
      omega
    · have hga : g a = false := hall a (le_refl a) hlt2
      rw [if_neg (by rw [hga]; exact Bool.false_ne_true)]
      have hltr : a < retries := by omega
      rw [dif_pos hltr]
      have hrec := ih (a + 1) i (by omega) (by omega) hir hgi
        (fun j hj1 hj2 => hall j (by omega) hj2)
      refine ⟨hrec.1, ?_⟩
      show (navAttempts g retries d (a + 1)).attemptsMade + 1 = i + 1 - a
      have := hrec.2
      omega

theorem navAttempts_delays_eq (g : Nat → Bool) (retries d : Nat) :
    ∀ (n a : Nat), retries + 1 - a ≤ n →
      (navAttempts g retries d a).delays =
        (List.range' a ((navAttempts g retries d a).attemptsMade - 1)).map
          (fun j => d * j) := by
  intro n
  induction n with
  | zero =>
    intro a h
    rw [navAttempts, dif_pos (by omega)]
    rfl
  | succ n ih =>
    intro a h
    by_cases hgt : a > retries
    · rw [navAttempts, dif_pos hgt]
      rfl
    · rw [navAttempts, dif_neg hgt]
      by_cases hg : g a = true
      · rw [if_pos hg]
        rfl
      · rw [if_neg hg]
        by_cases hlt : a < retries
        · rw [dif_pos hlt]
          have ihh := ih (a + 1) (by omega)
          have hone : 1 ≤ (navAttempts g retries d (a + 1)).attemptsMade :=
            navAttempts_made_ge_one g retries d (a + 1) (by omega)
          obtain ⟨m, hm⟩ :
              ∃ m, (navAttempts g retries d (a + 1)).attemptsMade = m + 1 :=
            ⟨(navAttempts g retries d (a + 1)).attemptsMade - 1, by omega⟩
          show d * a :: (navAttempts g retries d (a + 1)).delays =
            (List.range' a
              ((navAttempts g retries d (a + 1)).attemptsMade + 1 - 1)).map
              (fun j => d * j)
          rw [ihh, hm]
          simp only [Nat.add_sub_cancel]
          rw [List.range'_succ]
          rfl
        · rw [dif_neg hlt]
          rfl

/-- C7: the navigation driver makes at most `retries` attempts; it throws
`NAVIGATION_FAILED` exactly when every one of the `retries` attempts fails;
when attempt `i` is the first to succeed it returns normally after exactly
`i` attempts; and the delays slept between consecutive attempts are
`retryDelay * 1, retryDelay * 2, ...`, one per failed attempt that is
followed by another attempt. -/
theorem c7_navigation_retry (gotoOk : Nat → Bool) (retries retryDelay : Nat) :
    (navigateToUrl gotoOk retries retryDelay).attemptsMade ≤ retries ∧
      ((navigateToUrl gotoOk retries retryDelay).ok = false ↔
        ∀ i, 1 ≤ i → i ≤ retries → gotoOk i = false) ∧
      (∀ i, 1 ≤ i → i ≤ retries → gotoOk i = true →
        (∀ j, 1 ≤ j → j < i → gotoOk j = false) →
        (navigateToUrl gotoOk retries retryDelay).ok = true ∧
          (navigateToUrl gotoOk retries retryDelay).attemptsMade = i) ∧
      (navigateToUrl gotoOk retries retryDelay).delays =
        (List.range' 1
          ((navigateToUrl gotoOk retries retryDelay).attemptsMade - 1)).map
          (fun j => retryDelay * j) := by
  refine ⟨?_, ?_, ?_, ?_⟩
  · have := navAttempts_made_le gotoOk retries retryDelay retries 1 (by omega)
    rw [navigateToUrl]
    omega
  · rw [navigateToUrl]
    exact navAttempts_fail_iff gotoOk retries retryDelay retries 1 (by omega)
  · intro i h1 h2 h3 h4
    have := navAttempts_first_success gotoOk retries retryDelay retries 1 i
      (by omega) h1 h2 h3 h4
    rw [navigateToUrl]
    exact ⟨this.1, by omega⟩
  · rw [navigateToUrl]
    exact navAttempts_delays_eq gotoOk retries retryDelay retries 1 (by omega)

/-- Witness for C7: with three retries and a `goto` that fails once then
succeeds, navigation returns normally after exactly two attempts. -/
theorem c7_navigation_retry_witness :
    (navigateToUrl (fun i => i == 2) 3 2000).ok = true ∧
      (navigateToUrl (fun i => i == 2) 3 2000).attemptsMade = 2 :=
  (c7_navigation_retry (fun i => i == 2) 3 2000).2.2.1 2 (by decide)
    (by decide) (by decide)
    (fun j hj1 hj2 => by
      have : j = 1 := by omega
      subst this
      decide)
